import Mathlib

/-!
Verification of a two-pass assembler (C sources under src/) against its
natural-language specification.  The development shallowly embeds the parts
of the program the claims are about:

* the symbol-table relocation fix-up (`index_update`, src/second_pass.c),
* second-pass operand resolution (`search_and_update`, src/second_pass.c),
* the first-pass instruction word emission (`word`, `update`,
  `instruction`, src/instruction.c, src/instruction.h macros),
* the `.mat` directive data emission (`mat_update`, src/directive.c),
* the `.entry`/`.extern` symbol-table interplay
  (`search_entery_and_update`, src/code.c; `search_label`, `add_label`,
  src/data.c),
* the operand addressing-mode classifier (`which_type_operand`,
  src/instruction.c),
* the base-4 output encoder (`int_to_special_base4`,
  `add_one_to_special_base4`, src/second_pass.c),
* the artifact-emission gate of the driver (`main`, src/assembler.c).

C ints are modelled as `Int` (or `Nat` where the source value is
provably non-negative at every use), C strings as `String` or
`List Char`, NULL-able strings as `Option`, and the growable tables as
`List`s.  Allocation failure (the C `EXIT` escape) is outside the model:
every embedded path is the non-EXIT path.
-/

namespace Assembler

/-! ### Constants from the C headers -/

/-- MEMORY_START from src/second_pass.h. -/
def MEMORY_START : Int := 100

/-- INSTRUCTION from src/code.h (the `type` of a Code label). -/
def INSTRUCTION : Int := 0

/-- DIRECTIVE from src/code.h (the `type` of a Data label). -/
def DIRECTIVE : Int := 1

/-- ENTRY from src/code.h (value of the `en` attribute field). -/
def ENTRY : Int := 3

/-- EXTERN from src/code.h (value of the `en` attribute field). -/
def EXTERN : Int := 4

/-- IMMEDIATE addressing-mode sentinel from src/instruction.h (`00`). -/
def IMMEDIATE : Int := 0

/-- DIRECT addressing-mode sentinel from src/instruction.h (`01`). -/
def DIRECT : Int := 1

/-- MATRIX addressing-mode sentinel from src/instruction.h (decimal `10`). -/
def MATRIX : Int := 10

/-- REGISTER addressing-mode sentinel from src/instruction.h (decimal `11`). -/
def REGISTER : Int := 11

/-- NO_OPERAND from src/instruction.h. -/
def NO_OPERAND : Int := -1

/-- NO_KNEWN from src/instruction.h (placeholder payload and ARE). -/
def NO_KNEWN : Int := -4

/-- ABSOLUTE relocation tag from src/instruction.h. -/
def ABSOLUTE : Int := 0

/-- EXTERNAL relocation tag from src/instruction.h. -/
def EXTERNAL : Int := 1

/-- RELOCATABLE relocation tag from src/instruction.h. -/
def RELOCATABLE : Int := 2

/-! Opcodes, from `enum command` in src/instruction.h. -/

/-- Opcode MOV. -/
def MOV : Int := 0

/-- Opcode CMP. -/
def CMP : Int := 1

/-- Opcode ADD. -/
def ADD : Int := 2

/-- Opcode SUB. -/
def SUB : Int := 3

/-- Opcode LEA. -/
def LEA : Int := 4

/-- Opcode CLR. -/
def CLR : Int := 5

/-- Opcode NOT. -/
def NOT : Int := 6

/-- Opcode INC. -/
def INC : Int := 7

/-- Opcode DEC. -/
def DEC : Int := 8

/-- Opcode JMP. -/
def JMP : Int := 9

/-- Opcode BNE. -/
def BNE : Int := 10

/-- Opcode JSR. -/
def JSR : Int := 11

/-- Opcode RED. -/
def RED : Int := 12

/-- Opcode PRN. -/
def PRN : Int := 13

/-- Opcode RTS. -/
def RTS : Int := 14

/-- Opcode STOP. -/
def STOP : Int := 15

/-! ### Data model (src/data.h) -/

/-- One row of the symbol table, `struct labelMemory` of src/data.h:
name, `type` (INSTRUCTION/DIRECTIVE; 0 from `calloc` otherwise),
`index` (address), and the `en` attribute (0 none / ENTRY / EXTERN). -/
structure labelMemory where
  name : String
  type : Int
  index : Int
  en : Int
  deriving DecidableEq

/-- One instruction-image word, the tagged union
`struct instructionsMemory` of src/data.h. -/
inductive instWord where
  | command (opcode operand1 operand2 are : Int)
  | register (operand1 operand2 are : Int)
  | addr (address are : Int)
  deriving DecidableEq

/-- One row of the external-use table, `struct external` of src/data.h. -/
structure external where
  name : String
  index : Int
  deriving DecidableEq

/-! ### Relocation fix-up (`index_update`, src/second_pass.c lines 17-32) -/

/-- Embeds `index_update`: every DIRECTIVE (Data) label gets
`index + *ic + MEMORY_START`, every INSTRUCTION (Code) label gets
`index + MEMORY_START`, any other `type` value is left alone. -/
def index_update (labeltable : List labelMemory) (ic : Int) : List labelMemory :=
  labeltable.map (fun l =>
    if l.type = DIRECTIVE then { l with index := l.index + ic + MEMORY_START }
    else if l.type = INSTRUCTION then { l with index := l.index + MEMORY_START }
    else l)

/-- A fixed concrete symbol table used by witnesses. -/
def witnessTable : List labelMemory :=
  [⟨"MAIN", 0, 0, 0⟩, ⟨"DAT", 1, 1, 0⟩]

/-! ### Lexical helpers (src/directive.c, src/instruction.c) -/

/-- The character class of C `isspace` (space, tab, newline, vertical
tab, form feed, carriage return). -/
def c_isspace (c : Char) : Bool :=
  c = ' ' ∨ c = '\t' ∨ c = '\n' ∨ c = '\x0b' ∨ c = '\x0c' ∨ c = '\x0d'

/-- Embeds `only_spaces_and_tabs` (src/directive.c lines 380-391): true
when every character of the string satisfies `isspace` (despite the name,
the source uses `isspace`). -/
def only_spaces_and_tabs (s : List Char) : Bool :=
  s.all c_isspace

/-- Embeds `is_matrix` (src/instruction.c lines 479-498): returns 0 when
the string holds at least one `[` or `]`, and 1 otherwise. -/
def is_matrix (s : List Char) : Int :=
  if 0 < s.count '[' ∨ 0 < s.count ']' then 0 else 1

/-- The shared tail of `which_type_operand`: the MATRIX test and the
DIRECT fallthrough, applied to the whole original string. -/
def matrix_or_direct (s : List Char) : Int :=
  if is_matrix s = 0 then MATRIX else DIRECT

/-- Decides whether an optional character is a digit between `0` and `7`;
`none` stands for reading the NUL terminator past the end in C, which
fails the comparison `str[i+1] >= '0' && str[i+1] <= '7'`. -/
def digit07 : Option Char → Bool
  | none => false
  | some c => decide ('0' ≤ c ∧ c ≤ '7')

/-- Embeds `which_type_operand` (src/instruction.c lines 134-158).
A NULL or all-`isspace` string is NO_OPERAND.  Otherwise leading
`isspace` characters are skipped; a `#` head is IMMEDIATE; an `r`
followed by a character in `0`..`7` is REGISTER (the source checks only
`str[i]` and `str[i+1]`, nothing beyond); else MATRIX when the string
holds a bracket, DIRECT otherwise. -/
def which_type_operand : Option (List Char) → Int
  | none => NO_OPERAND
  | some s =>
    if only_spaces_and_tabs s then NO_OPERAND
    else
      if (s.dropWhile c_isspace).head? = some '#' then IMMEDIATE
      else if (s.dropWhile c_isspace).head? = some 'r'
          ∧ digit07 ((s.dropWhile c_isspace).drop 1).head? = true then REGISTER
      else matrix_or_direct s

/-- The claim's characterisation of the Register class, written from the
spec sentence: after leading whitespace the operand is exactly `r0`..`r7`
with nothing following. -/
def matches_register_exact (s : List Char) : Bool :=
  match s.dropWhile c_isspace with
  | ['r', c] => decide ('0' ≤ c ∧ c ≤ '7')
  | _ => false

/-! ### First-pass instruction emission
(`word`, `update`, `instruction`, src/instruction.c) -/

/-- Embeds `word` (src/instruction.c lines 23-122) together with the
macros of src/instruction.h it expands.  Result: the words appended to
the instruction image, the number of diagnostics recorded, and the C
return value (1 from the SET_OPCODE macros, 0 from a failed operand-count
or immediate check or an unknown name).  In the `lea` branch the source
line 51 `if(...)` ends in a semicolon, so the block below it runs
unconditionally and its SET_OPCODE macro executes `return 1`; the
`add_error` call at line 55 is unreachable. -/
def word (str : String) (operand1 operand2 : Int) : List instWord × Nat × Int :=
  if str = "mov" then
    if operand1 = NO_OPERAND ∨ operand2 = NO_OPERAND then ([], 1, 0)
    else if operand2 = IMMEDIATE then ([], 1, 0)
    else ([instWord.command MOV operand1 operand2 0], 0, 1)
  else if str = "cmp" then
    if operand1 = NO_OPERAND ∨ operand2 = NO_OPERAND then ([], 1, 0)
    else ([instWord.command CMP operand1 operand2 0], 0, 1)
  else if str = "add" then
    if operand1 = NO_OPERAND ∨ operand2 = NO_OPERAND then ([], 1, 0)
    else if operand2 = IMMEDIATE then ([], 1, 0)
    else ([instWord.command ADD operand1 operand2 0], 0, 1)
  else if str = "sub" then
    if operand1 = NO_OPERAND ∨ operand2 = NO_OPERAND then ([], 1, 0)
    else if operand2 = IMMEDIATE then ([], 1, 0)
    else ([instWord.command SUB operand1 operand2 0], 0, 1)
  else if str = "lea" then
    if operand1 = NO_OPERAND ∨ operand2 = NO_OPERAND then ([], 1, 0)
    else ([instWord.command LEA operand1 operand2 0], 0, 1)
  else if str = "not" then
    if (operand1 = NO_OPERAND ∧ operand2 = NO_OPERAND)
        ∨ (¬ operand1 = NO_OPERAND ∧ ¬ operand2 = NO_OPERAND) then ([], 1, 0)
    else if operand1 = IMMEDIATE then ([], 1, 0)
    else ([instWord.command NOT 0 operand1 0], 0, 1)
  else if str = "clr" then
    if (operand1 = NO_OPERAND ∧ operand2 = NO_OPERAND)
        ∨ (¬ operand1 = NO_OPERAND ∧ ¬ operand2 = NO_OPERAND) then ([], 1, 0)
    else if operand1 = IMMEDIATE then ([], 1, 0)
    else ([instWord.command CLR 0 operand1 0], 0, 1)
  else if str = "inc" then
    if (operand1 = NO_OPERAND ∧ operand2 = NO_OPERAND)
        ∨ (¬ operand1 = NO_OPERAND ∧ ¬ operand2 = NO_OPERAND) then ([], 1, 0)
    else if operand1 = IMMEDIATE then ([], 1, 0)
    else ([instWord.command INC 0 operand1 0], 0, 1)
  else if str = "dec" then
    if (operand1 = NO_OPERAND ∧ operand2 = NO_OPERAND)
        ∨ (¬ operand1 = NO_OPERAND ∧ ¬ operand2 = NO_OPERAND) then ([], 1, 0)
    else if operand1 = IMMEDIATE then ([], 1, 0)
    else ([instWord.command DEC 0 operand1 0], 0, 1)
  else if str = "jmp" then
    if (operand1 = NO_OPERAND ∧ operand2 = NO_OPERAND)
        ∨ (¬ operand1 = NO_OPERAND ∧ ¬ operand2 = NO_OPERAND) then ([], 1, 0)
    else if operand1 = IMMEDIATE then ([], 1, 0)
    else ([instWord.command JMP 0 operand1 0], 0, 1)
  else if str = "bne" then
    if (operand1 = NO_OPERAND ∧ operand2 = NO_OPERAND)
        ∨ (¬ operand1 = NO_OPERAND ∧ ¬ operand2 = NO_OPERAND) then ([], 1, 0)
    else if operand1 = IMMEDIATE then ([], 1, 0)
    else ([instWord.command BNE 0 operand1 0], 0, 1)
  else if str = "red" then
    if (operand1 = NO_OPERAND ∧ operand2 = NO_OPERAND)
        ∨ (¬ operand1 = NO_OPERAND ∧ ¬ operand2 = NO_OPERAND) then ([], 1, 0)
    else if operand1 = IMMEDIATE then ([], 1, 0)
    else ([instWord.command RED 0 operand1 0], 0, 1)
  else if str = "prn" then
    if (operand1 = NO_OPERAND ∧ operand2 = NO_OPERAND)
        ∨ (¬ operand1 = NO_OPERAND ∧ ¬ operand2 = NO_OPERAND) then ([], 1, 0)
    else ([instWord.command PRN 0 operand1 0], 0, 1)
  else if str = "jsr" then
    if (operand1 = NO_OPERAND ∧ operand2 = NO_OPERAND)
        ∨ (¬ operand1 = NO_OPERAND ∧ ¬ operand2 = NO_OPERAND) then ([], 1, 0)
    else if operand1 = IMMEDIATE then ([], 1, 0)
    else ([instWord.command JSR 0 operand1 0], 0, 1)
  else if str = "rts" then
    if ¬ operand1 = NO_OPERAND ∨ ¬ operand2 = NO_OPERAND then ([], 1, 0)
    else ([instWord.command RTS 0 0 0], 0, 1)
  else if str = "stop" then
    if ¬ operand1 = NO_OPERAND ∨ ¬ operand2 = NO_OPERAND then ([], 1, 0)
    else ([instWord.command STOP 0 0 0], 0, 1)
  else ([], 0, 0)

/-- Embeds the emission of `update` (src/instruction.c lines 271-366) for
one operand, abstracting the token scanning: `hasSecond` is whether the
`word2` argument is non-NULL, `immOk` whether `strtol` consumed the whole
immediate token, `matOk` whether `is_valid_matrix` accepted the matrix
text, `num` the parsed immediate value, and `r1`, `r2` the parsed
register numbers.  Result: appended words, diagnostics recorded, return
value. -/
def update_words (operand1 operand2 : Int) (hasSecond : Bool)
    (immOk matOk : Bool) (num r1 r2 : Int) : List instWord × Nat × Int :=
  if operand1 = IMMEDIATE then
    if immOk then ([instWord.addr num ABSOLUTE], 0, 1) else ([], 1, 0)
  else if operand1 = DIRECT then ([instWord.addr NO_KNEWN NO_KNEWN], 0, 1)
  else if operand1 = MATRIX then
    if matOk then
      ([instWord.addr NO_KNEWN NO_KNEWN, instWord.register r1 r2 ABSOLUTE], 0, 1)
    else ([], 1, 0)
  else if operand1 = REGISTER then
    if operand2 = REGISTER then ([instWord.register r1 r2 ABSOLUTE], 0, 1)
    else if hasSecond = false then ([instWord.register 0 r1 ABSOLUTE], 0, 1)
    else ([instWord.register r1 0 ABSOLUTE], 0, 1)
  else ([], 1, 0)

/-- Embeds the emission part of `instruction` (src/instruction.c lines
178-248) once the line has passed the `word4` (extra-operand) and
`parse_ops` checks: `word` runs first; when it returns 1 the first
`update` runs if the first operand token exists (`hasW2`) and its type is
not NO_OPERAND; the second `update` is skipped when both operands are
Register and otherwise runs if the second token exists (`hasW3`) and the
first operand type is not NO_OPERAND, with `update(word3, NULL,
operand2, 0, ...)`.  The source never checks `update`'s return value 0,
so both calls contribute their words and diagnostics.  Result: all words
appended for the line and the diagnostics recorded. -/
def instruction_result (op : String) (operand1 operand2 : Int)
    (hasW2 hasW3 : Bool) (immOk1 matOk1 immOk2 matOk2 : Bool)
    (num1 num2 r1 r2 r3 : Int) : List instWord × Nat :=
  let w := word op operand1 operand2
  if w.2.2 = 1 then
    let u1 := if hasW2 = true ∧ ¬ operand1 = NO_OPERAND then
        update_words operand1 operand2 hasW3 immOk1 matOk1 num1 r1 r2
      else ([], 0, 1)
    let u2 := if operand1 = REGISTER ∧ operand2 = REGISTER then ([], 0, 1)
      else if hasW3 = true ∧ ¬ operand1 = NO_OPERAND then
        update_words operand2 0 false immOk2 matOk2 num2 r3 0
      else ([], 0, 1)
    (w.1 ++ u1.1 ++ u2.1, w.2.1 + u1.2.1 + u2.2.1)
  else (w.1, w.2.1)

/-- The word-count bookkeeping function of the claim, written from the
spec sentence: Immediate and Direct cost one word, Matrix two, Register
one, an absent operand zero. -/
def words_for_spec (t : Int) : Int :=
  if t = IMMEDIATE ∨ t = DIRECT then 1
  else if t = MATRIX then 2
  else if t = REGISTER then 1
  else 0

/-! ### Second-pass operand resolution
(`search_and_update`, src/second_pass.c lines 272-303) -/

/-- Embeds `search_and_update`.  The label table is scanned for the first
row whose name equals `str` (the C loop returns inside the match).  On a
match the instruction word at position `ic2` is overwritten: for an
EXTERN label with `(address 0, ARE EXTERNAL)` after appending the row
`(str, *ic2 + MEMORY_START)` to the external table; for an ENTRY label
and for any other label with `(address label.index, ARE RELOCATABLE)`
(the two source branches are identical).  Without a match one error is
recorded and 0 is returned.  Result: the new instruction table, the new
external table, the number of errors added, and the C return value. -/
def search_and_update (str : String) (instable : List instWord)
    (labeltable : List labelMemory) (extable : List external) (ic2 : Nat) :
    List instWord × List external × Nat × Int :=
  match labeltable.find? (fun l => l.name == str) with
  | some l =>
    if l.en = EXTERN then
      (instable.set ic2 (instWord.addr 0 EXTERNAL),
       extable ++ [⟨str, (ic2 : Int) + MEMORY_START⟩], 0, 1)
    else if l.en = ENTRY then
      (instable.set ic2 (instWord.addr l.index RELOCATABLE), extable, 0, 1)
    else
      (instable.set ic2 (instWord.addr l.index RELOCATABLE), extable, 0, 1)
  | none => (instable, extable, 1, 0)

/-- A fixed concrete instruction table used by witnesses. -/
def witnessInstable : List instWord :=
  [instWord.command 9 0 1 0, instWord.addr NO_KNEWN NO_KNEWN]

/-- A fixed concrete symbol table holding one Extern label. -/
def witnessExternLabels : List labelMemory := [⟨"FOO", 0, 0, 4⟩]

/-! ### Symbol-table mutation
(`search_label`, `add_label`, src/data.c; `search_entery_and_update`,
src/code.c) -/

/-- Embeds `search_label` (src/data.c lines 589-626).  The first row
whose name matches is mutated and scanning stops (`return 1`): for
EXTERN the attribute is overwritten with EXTERN, for ENTRY with ENTRY;
for INSTRUCTION/DIRECTIVE the row is adopted (type and index set) only
when its attribute is ENTRY, otherwise the loop continues.  Returns the
mutated table and whether a row was updated. -/
def search_label (labeltable : List labelMemory) (str : String)
    (type ic dc : Int) : List labelMemory × Bool :=
  match labeltable with
  | [] => ([], false)
  | l :: rest =>
    if l.name = str then
      if type = EXTERN then ({ l with en := EXTERN } :: rest, true)
      else if type = ENTRY then ({ l with en := ENTRY } :: rest, true)
      else if type = INSTRUCTION ∨ type = DIRECTIVE then
        if l.en = ENTRY then
          if type = DIRECTIVE then
            ({ l with type := type, index := dc } :: rest, true)
          else ({ l with type := type, index := ic } :: rest, true)
        else
          let r := search_label rest str type ic dc
          (l :: r.1, r.2)
      else
        let r := search_label rest str type ic dc
        (l :: r.1, r.2)
    else
      let r := search_label rest str type ic dc
      (l :: r.1, r.2)

/-- Embeds `add_label` (src/data.c lines 170-208), reallocation aside:
`search_label` runs first; when it updated nothing, a new row is
appended whose fields follow the zero-initialised slot plus the
assignments of the source (type and index only for INSTRUCTION and
DIRECTIVE, the attribute only for EXTERN and ENTRY). -/
def add_label (labeltable : List labelMemory) (str : String)
    (type ic dc : Int) : List labelMemory :=
  let r := search_label labeltable str type ic dc
  if r.2 then r.1
  else r.1 ++
    [{ name := str,
       type := if type = INSTRUCTION ∨ type = DIRECTIVE then type else 0,
       index := if type = INSTRUCTION then ic
                else if type = DIRECTIVE then dc else 0,
       en := if type = EXTERN then EXTERN
             else if type = ENTRY then ENTRY else 0 }]

/-- The scanning loop of `search_entery_and_update` (src/code.c lines
389-418): every matching row whose attribute is neither ENTRY nor EXTERN
gets the ENTRY attribute and raises the flag; a matching row that is
already ENTRY or EXTERN records one diagnostic instead.  Returns the
mutated table, the flag, and the diagnostics recorded. -/
def entry_scan (labeltable : List labelMemory) (str : String) :
    List labelMemory × Bool × Nat :=
  match labeltable with
  | [] => ([], false, 0)
  | l :: rest =>
    let r := entry_scan rest str
    if l.name = str then
      if ¬ l.en = ENTRY ∧ ¬ l.en = EXTERN then
        ({ l with en := ENTRY } :: r.1, true, r.2.2)
      else (l :: r.1, r.2.1, r.2.2 + 1)
    else (l :: r.1, r.2.1, r.2.2)

/-- Embeds `search_entery_and_update` (src/code.c lines 389-418): after
the scan, when the flag stayed 0 the name is handed to
`add_label(..., ENTRY, 0, 0)` — also when the scan found the name but
only as an ENTRY or EXTERN row.  Returns the final table and the
diagnostics recorded. -/
def search_entery_and_update (labeltable : List labelMemory)
    (str : String) : List labelMemory × Nat :=
  let r := entry_scan labeltable str
  if r.2.1 then (r.1, r.2.2)
  else (add_label r.1 str ENTRY 0 0, r.2.2)

/-! ### The `.mat` directive (`mat_update`, src/directive.c lines 146-244) -/

/-- The initializer loop of `mat_update` (`while(str1 != NULL && num <
(val1 * val2))`): values are appended while cells remain.  Returns the
appended values, the final `num`, and whether a token was left over
(`str1 != NULL` on exit). -/
def mat_take (vals : List Int) (num cells : Int) : List Int × Int × Bool :=
  match vals with
  | [] => ([], num, false)
  | v :: rest =>
    if num < cells then
      let r := mat_take rest (num + 1) cells
      (v :: r.1, r.2.1, r.2.2)
    else ([], num, true)

/-- The zero-padding loop of `mat_update` for the case with initializers
(`while(num <= (val1 * val2))`): note the `<=`, one cell beyond the
count. -/
def mat_pad_loop (num cells : Int) : List Int :=
  if num ≤ cells then 0 :: mat_pad_loop (num + 1) cells else []
  termination_by (cells + 1 - num).toNat
  decreasing_by
    omega

/-- The zero-filling loop of `mat_update` for the case without
initializers (`while(num != (val1 * val2))`); modelled for `0 ≤ cells`
(in the source a negative product would loop forever, but the dimensions
are parsed from digit-only text). -/
def mat_zero_loop (num cells : Int) : List Int :=
  if num = cells then []
  else if cells < num then []
  else 0 :: mat_zero_loop (num + 1) cells
  termination_by (cells - num).toNat
  decreasing_by
    omega

/-- Embeds the data emission of `mat_update` (src/directive.c lines
146-244) after the bracket syntax and both dimension conversions have
been accepted, with the parsed dimensions `val1`, `val2` and the parsed
initializer values (`none` when `str4 == NULL`, i.e. no initializer
text).  All initializer conversions are assumed in range (each value
came through `is_conversion_successful`).  Follows the source: with no
initializers, zeros until `num != cells` fails; with initializers, the
take loop, then the dead `num > cells` check, then when `num < cells`
zeros while `num <= cells`.  Returns the appended data words and the
diagnostics recorded. -/
def mat_update_words (val1 val2 : Int) (inits : Option (List Int)) :
    List Int × Nat :=
  match inits with
  | none => (mat_zero_loop 0 (val1 * val2), 0)
  | some vals =>
    let r := mat_take vals 0 (val1 * val2)
    if r.2.2 = true ∧ val1 * val2 < r.2.1 then (r.1, 1)
    else if r.2.1 < val1 * val2 then
      (r.1 ++ mat_pad_loop r.2.1 (val1 * val2), 0)
    else (r.1, 0)

/-! ### The artifact gate of the driver (src/assembler.c lines 102-141) -/

/-- Which artifacts `main` produces for one input file. -/
structure artifacts where
  wrote_ob : Bool
  wrote_ent : Bool
  wrote_ext : Bool
  removed_am : Bool
  deriving DecidableEq

/-- Embeds the tail of `main` (src/assembler.c lines 102-141): after the
passes, `ic + dc > 156` records one more diagnostic; with a positive
diagnostic count the errors are printed, the `.am` file is removed and
nothing is written; otherwise `.ext` is written when external uses
exist, `.ent` when an Entry label exists, and `.ob` always. -/
def main_artifact_gate (ec ic dc exc : Int) (hasEntry : Bool) : artifacts :=
  let ec2 := if ic + dc > 156 then ec + 1 else ec
  if ec2 > 0 then ⟨false, false, false, true⟩
  else ⟨true, hasEntry, decide (exc > 0), false⟩

/-! ### The base-4 encoder (src/second_pass.c lines 313-425) -/

/-- Embeds `digit_to_char_special_base4` (src/second_pass.c lines
313-323): digits 0..3 become `a`..`d`, anything else the NUL character
of the C default branch. -/
def digit_to_char_special_base4 (digit : Nat) : Char :=
  if digit = 0 then 'a'
  else if digit = 1 then 'b'
  else if digit = 2 then 'c'
  else if digit = 3 then 'd'
  else Char.ofNat 0

/-- The digit a character stands for, as read by the switch statements of
`add_one_to_special_base4` and of the inversion loop of
`int_to_special_base4`: `digit` is initialised to 0 and the switches have
no default case, so an unexpected character reads as 0. -/
def char_to_digit_special_base4 (c : Char) : Nat :=
  if c = 'a' then 0
  else if c = 'b' then 1
  else if c = 'c' then 2
  else if c = 'd' then 3
  else 0

/-- The digit-writing loop of `int_to_special_base4`
(`while (current_num > 0 && i >= 0)`), viewed on the reversed character
list: the C loop writes `current % 4` at position `i` and moves left;
on the reversed list it replaces a prefix and stops when the number is
exhausted or the buffer ends. -/
def fill_base4_rev (current : Nat) : List Char → List Char
  | [] => []
  | c :: rest =>
    if current = 0 then c :: rest
    else digit_to_char_special_base4 (current % 4) :: fill_base4_rev (current / 4) rest

/-- The carry loop of `add_one_to_special_base4` (src/second_pass.c
lines 334-353), viewed on the reversed character list
(`for (i = len - 1; i >= 0 && carry > 0; i--)`). -/
def add_one_rev (carry : Nat) : List Char → List Char
  | [] => []
  | c :: rest =>
    if carry = 0 then c :: rest
    else
      digit_to_char_special_base4 ((char_to_digit_special_base4 c + carry) % 4)
        :: add_one_rev ((char_to_digit_special_base4 c + carry) / 4) rest

/-- Embeds `add_one_to_special_base4`: one is added with carry starting
at the right end of the string. -/
def add_one_to_special_base4 (s : List Char) : List Char :=
  (add_one_rev 1 s.reverse).reverse

/-- The digit inversion of the negative branch of `int_to_special_base4`:
each character is replaced by the character of `3 - digit`. -/
def invert_digit (c : Char) : Char :=
  digit_to_char_special_base4 (3 - char_to_digit_special_base4 c)

/-- Embeds `int_to_special_base4` (src/second_pass.c lines 368-425): the
buffer starts as `num_digits` copies of `a`; a non-negative `num` has its
base-4 digits written from the right while they last (`num == 0` writes
nothing); a negative `num` has the digits of `abs(num)` written the same
way, then every digit replaced by `3 - digit`, then one added with
carry. -/
def int_to_special_base4 (num : Int) (num_digits : Nat) : List Char :=
  if num < 0 then
    add_one_to_special_base4
      (((fill_base4_rev num.natAbs (List.replicate num_digits 'a').reverse).reverse).map
        invert_digit)
  else
    (fill_base4_rev num.toNat (List.replicate num_digits 'a').reverse).reverse

/-- The numeric value of a base-4 `a`..`d` string, most significant
digit first: the decoder the claims read the object file with. -/
def special_base4_value (s : List Char) : Nat :=
  s.foldl (fun acc c => 4 * acc + char_to_digit_special_base4 c) 0

/-- The claim's two's-complement reading of a base-4 string at the width
given by its own length. -/
def special_base4_twos_complement (s : List Char) : Int :=
  if special_base4_value s < 4 ^ s.length / 2 then
    (special_base4_value s : Int)
  else (special_base4_value s : Int) - 4 ^ s.length

/-- The little-endian value of a reversed digit string; proof-side view
of `special_base4_value`. -/
def val_rev : List Char → Nat
  | [] => 0
  | c :: rest => char_to_digit_special_base4 c + 4 * val_rev rest

/-- Membership in the output alphabet `a`..`d`. -/
def is_base4_char (c : Char) : Prop :=
  c = 'a' ∨ c = 'b' ∨ c = 'c' ∨ c = 'd'

/-! ### Theorems for claim C2 -/

/-- C2: if before fix-up every Code symbol's index is in `[0, IC)` and every
Data symbol's index is in `[0, DC)`, then `index_update` adds MEMORY_START
to each Code symbol's address and `IC + MEMORY_START` to each Data symbol's
address, so afterwards Code addresses lie in `[100, 100+IC)` and Data
addresses in `[100+IC, 100+IC+DC)`. -/
theorem C2_index_update_ranges (t : List labelMemory) (ic dc : Int)
    (hc : ∀ l ∈ t, l.type = INSTRUCTION → 0 ≤ l.index ∧ l.index < ic)
    (hd : ∀ l ∈ t, l.type = DIRECTIVE → 0 ≤ l.index ∧ l.index < dc) :
    ∀ (i : Nat) (l : labelMemory), t[i]? = some l →
      ∃ l2 : labelMemory, (index_update t ic)[i]? = some l2 ∧ l2.type = l.type ∧
        (l.type = INSTRUCTION →
          l2.index = l.index + MEMORY_START ∧ 100 ≤ l2.index ∧ l2.index < 100 + ic) ∧
        (l.type = DIRECTIVE →
          l2.index = l.index + ic + MEMORY_START ∧
          100 + ic ≤ l2.index ∧ l2.index < 100 + ic + dc) := by
  intro i l hget
  have hmem : l ∈ t := List.getElem?_mem hget
  refine ⟨if l.type = DIRECTIVE then { l with index := l.index + ic + MEMORY_START }
      else if l.type = INSTRUCTION then { l with index := l.index + MEMORY_START }
      else l, ?_, ?_, ?_, ?_⟩
  · simp [index_update, List.getElem?_map, hget]
  · split_ifs <;> rfl
  · intro hI
    have hne : l.type ≠ DIRECTIVE := by
      rw [hI]; simp [DIRECTIVE, INSTRUCTION]
    have := hc l hmem hI
    rw [if_neg hne, if_pos hI]
    simp only [MEMORY_START]
    refine ⟨trivial, ?_⟩
    omega
  · intro hD
    have := hd l hmem hD
    rw [if_pos hD]
    simp only [MEMORY_START]
    refine ⟨trivial, ?_⟩
    omega

/-- Witness for C2 at a concrete table: a Code label at index 0 with IC=2
and a Data label at index 1 with DC=3. -/
theorem C2_index_update_ranges_witness :
    (∀ l ∈ witnessTable, l.type = INSTRUCTION → 0 ≤ l.index ∧ l.index < 2) ∧
    (∀ (i : Nat) (l : labelMemory), witnessTable[i]? = some l →
      ∃ l2 : labelMemory, (index_update witnessTable 2)[i]? = some l2 ∧ l2.type = l.type ∧
        (l.type = INSTRUCTION →
          l2.index = l.index + MEMORY_START ∧ 100 ≤ l2.index ∧ l2.index < 100 + 2) ∧
        (l.type = DIRECTIVE →
          l2.index = l.index + 2 + MEMORY_START ∧
          100 + 2 ≤ l2.index ∧ l2.index < 100 + 2 + 3)) :=
  ⟨by decide, C2_index_update_ranges witnessTable 2 3 (by decide) (by decide)⟩

/-! ### Theorems for claim C3 -/

/-- C3: when the label of a Direct (or first Matrix) operand is found in
the symbol table, `search_and_update` overwrites the word at the current
instruction-counter position: with `(address 0, ARE External)` plus one
appended ExternalUse `(name, position + MEMORY_START)` when the label is
Extern, and with `(label address, ARE Relocatable)` and no ExternalUse
otherwise.  Every ExternalUse row that is new here carries the absolute
address of the word at that position, whose ARE is External. -/
theorem C3_search_and_update_resolution (str : String) (instable : List instWord)
    (labeltable : List labelMemory) (extable : List external) (ic2 : Nat)
    (l : labelMemory)
    (hfind : labeltable.find? (fun x => x.name == str) = some l)
    (hlt : ic2 < instable.length)
    (ins2 : List instWord) (ext2 : List external) (errs : Nat) (ret : Int)
    (hres : search_and_update str instable labeltable extable ic2
        = (ins2, ext2, errs, ret)) :
    (l.en = EXTERN →
      ins2[ic2]? = some (instWord.addr 0 EXTERNAL) ∧
      ext2 = extable ++ [⟨str, (ic2 : Int) + MEMORY_START⟩] ∧ ret = 1) ∧
    (l.en ≠ EXTERN →
      ins2 = instable.set ic2 (instWord.addr l.index RELOCATABLE) ∧
      ext2 = extable ∧ ret = 1) ∧
    (∀ e ∈ ext2, e ∈ extable ∨
      (e.index = (ic2 : Int) + MEMORY_START ∧
       ins2[ic2]? = some (instWord.addr 0 EXTERNAL))) := by
  unfold search_and_update at hres
  rw [hfind] at hres
  dsimp only at hres
  by_cases hx : l.en = EXTERN
  · rw [if_pos hx] at hres
    simp only [Prod.mk.injEq] at hres
    obtain ⟨rfl, rfl, rfl, rfl⟩ := hres
    refine ⟨fun _ => ⟨List.getElem?_set_eq_of_lt _ hlt, rfl, rfl⟩,
        fun h => absurd hx h, ?_⟩
    intro e he
    rcases List.mem_append.mp he with h | h
    · exact Or.inl h
    · rcases List.mem_singleton.mp h with rfl
      exact Or.inr ⟨rfl, List.getElem?_set_eq_of_lt _ hlt⟩
  · rw [if_neg hx, ite_self] at hres
    simp only [Prod.mk.injEq] at hres
    obtain ⟨rfl, rfl, rfl, rfl⟩ := hres
    exact ⟨fun h => absurd h hx, fun _ => ⟨rfl, rfl, rfl⟩,
        fun e he => Or.inl he⟩

/-- Witness for C3: resolving the Direct operand `FOO` against an Extern
label at word position 1 yields an External word and the use record
`(FOO, 101)`. -/
theorem C3_search_and_update_resolution_witness :
    (witnessExternLabels.find? (fun x => x.name == "FOO") = some ⟨"FOO", 0, 0, 4⟩) ∧
    1 < witnessInstable.length ∧
    search_and_update "FOO" witnessInstable witnessExternLabels [] 1
      = ([instWord.command 9 0 1 0, instWord.addr 0 EXTERNAL],
         [⟨"FOO", 101⟩], 0, 1) ∧
    ([instWord.command 9 0 1 0, instWord.addr 0 EXTERNAL][1]?
        = some (instWord.addr 0 EXTERNAL)) :=
  ⟨by decide, by decide, by decide,
    ((C3_search_and_update_resolution "FOO" witnessInstable witnessExternLabels
      [] 1 ⟨"FOO", 0, 0, 4⟩ (by decide) (by decide)
      [instWord.command 9 0 1 0, instWord.addr 0 EXTERNAL]
      [⟨"FOO", 101⟩] 0 1 (by decide)).1 (by decide)).1⟩

/-! ### Theorems for claim C9 -/

/-- C9 counterexample: the operand string `r1x` begins with `r1` but has a
further character, so the claim classifies it Direct; the classifier in
the source checks only the first two characters and returns Register. -/
theorem C9_counterexample_r1x :
    which_type_operand (some ['r', '1', 'x']) = REGISTER ∧
    matches_register_exact ['r', '1', 'x'] = false ∧
    which_type_operand (some ['r', '1', 'x']) ≠ DIRECT := by decide

/-- C9 amended: the classifier returns Register exactly when the operand
is not NULL, not all-whitespace, and after leading whitespace begins with
`r` followed by a digit `0`..`7`, regardless of any further characters
(the `#` test cannot also fire, and the register test precedes the
bracket test). -/
theorem C9_register_prefix_iff (s : List Char) :
    which_type_operand (some s) = REGISTER ↔
    (¬ only_spaces_and_tabs s = true ∧
      (s.dropWhile c_isspace).head? = some 'r' ∧
      digit07 ((s.dropWhile c_isspace).drop 1).head? = true) := by
  unfold which_type_operand
  dsimp only
  by_cases hsp : only_spaces_and_tabs s = true
  · rw [if_pos hsp]
    constructor
    · intro h; exact absurd h (by decide)
    · rintro ⟨h, -, -⟩; exact absurd hsp h
  · rw [if_neg hsp]
    by_cases hh : (s.dropWhile c_isspace).head? = some '#'
    · rw [if_pos hh]
      constructor
      · intro h; exact absurd h (by decide)
      · rintro ⟨-, hr, -⟩
        rw [hh] at hr
        exact absurd hr (by decide)
    · rw [if_neg hh]
      by_cases hr : (s.dropWhile c_isspace).head? = some 'r'
          ∧ digit07 ((s.dropWhile c_isspace).drop 1).head? = true
      · rw [if_pos hr]
        exact ⟨fun _ => ⟨hsp, hr.1, hr.2⟩, fun _ => rfl⟩
      · rw [if_neg hr]
        constructor
        · intro h
          exact absurd h (by unfold matrix_or_direct; split_ifs <;> decide)
        · rintro ⟨-, h1, h2⟩
          exact absurd ⟨h1, h2⟩ hr

/-! ### Theorems for claim C6 -/

/-- C6: for every `lea` line whose source operand mode is Direct or
Matrix and whose destination mode is Direct, Matrix or Register, `word`
appends one Command word carrying the LEA opcode and the two modes,
records no diagnostic, and returns 1 (accepted): the error report after
the dead `if(...)` of src/instruction.c line 51 is unreachable because
the SET_OPCODE macro returns first. -/
theorem C6_lea_accepts (operand1 operand2 : Int)
    (h1 : operand1 = DIRECT ∨ operand1 = MATRIX)
    (h2 : operand2 = DIRECT ∨ operand2 = MATRIX ∨ operand2 = REGISTER) :
    word "lea" operand1 operand2
      = ([instWord.command LEA operand1 operand2 0], 0, 1) := by
  rcases h1 with rfl | rfl <;> rcases h2 with rfl | rfl | rfl <;> decide

/-- Witness for C6: `lea` with a Direct source and a Register
destination. -/
theorem C6_lea_accepts_witness :
    ((DIRECT : Int) = DIRECT ∨ (DIRECT : Int) = MATRIX) ∧
    ((REGISTER : Int) = DIRECT ∨ (REGISTER : Int) = MATRIX
      ∨ (REGISTER : Int) = REGISTER) ∧
    word "lea" DIRECT REGISTER
      = ([instWord.command LEA DIRECT REGISTER 0], 0, 1) :=
  ⟨Or.inl rfl, Or.inr (Or.inr rfl),
    C6_lea_accepts DIRECT REGISTER (Or.inl rfl) (Or.inr (Or.inr rfl))⟩

/-! ### Theorems for claim C4 -/

/-- C4 at the failing input, the line `jmp  ,x` with TWO whitespace
characters before the comma (with a single space the comma is skipped
as a leading delimiter and the line assembles normally): the first
`strtok(str_copy, delimiters)` returns `jmp`, overwrites the first
space with NUL and leaves its save pointer at the second space; the
next call, `strtok(NULL, delimiters2)` with only the comma as
delimiter, does not skip that space and returns the blank token `" "`,
classified NO_OPERAND, and the third call returns `x`, classified
DIRECT.  `string_without_first_word` with delimiters `" ,\t"` swallows
the spaces and the comma, so `parse_ops` sees just `x` and records
nothing; `word` passes the one-operand check (exactly one of the two
types is NO_OPERAND) and appends the command word; both `update` calls
are skipped because they require the FIRST operand type to differ from
NO_OPERAND.  The accepted line therefore adds one word and no
diagnostic, while the claim's formula `1 + words_for(src) +
words_for(dst)` demands two words. -/
theorem C4_jmp_blank_src_operand :
    which_type_operand (some [' ']) = NO_OPERAND ∧
    which_type_operand (some ['x']) = DIRECT ∧
    (instruction_result "jmp" NO_OPERAND DIRECT true true
        true true true true 0 0 0 0 0).2 = 0 ∧
    (instruction_result "jmp" NO_OPERAND DIRECT true true
        true true true true 0 0 0 0 0).1
      = [instWord.command JMP 0 NO_OPERAND 0] ∧
    1 + words_for_spec NO_OPERAND + words_for_spec DIRECT = 2 := by decide

/-! ### Theorems for claim C8 -/

/-- C8 at the failing input, the directive `.entry X` with `X` already an
Extern row of address 0: the scan records one diagnostic, but the flag
stays 0, so `add_label(..., ENTRY, 0, 0)` runs and its `search_label`
overwrites the row's attribute from EXTERN to ENTRY.  The symbol table is
therefore not left unchanged: `X` loses its Extern attribute in exchange
for Entry. -/
theorem C8_entry_on_extern_mutates :
    search_entery_and_update [⟨"X", 0, 0, EXTERN⟩] "X"
      = ([⟨"X", 0, 0, ENTRY⟩], 1) ∧
    (ENTRY : Int) ≠ EXTERN ∧
    (search_entery_and_update [⟨"X", 0, 0, EXTERN⟩] "X").1
      ≠ [⟨"X", 0, 0, EXTERN⟩] := by decide

/-! ### Theorems for claim C7 -/

set_option maxRecDepth 4000 in
/-- C7 at the failing input `.mat [2][2] 1,2`: two initializers for four
cells.  The take loop appends `1` and `2`, no diagnostic is recorded
(num = 2 is not greater than 4, and the zero-pad branch runs), and the
pad loop `while(num <= 4)` appends zeros for num = 2, 3 and 4: five data
words in total, one more than `rows*cols = 4`, so DC grows by 5 where
the claim demands exactly 4. -/
theorem C7_mat_pad_off_by_one :
    mat_update_words 2 2 (some [1, 2]) = ([1, 2, 0, 0, 0], 0) ∧
    ([1, 2, 0, 0, 0] : List Int).length = 5 ∧ (2 : Int) * 2 = 4 := by
  refine ⟨?_, by decide, by decide⟩
  have hpad : mat_pad_loop 2 4 = [0, 0, 0] := by
    rw [mat_pad_loop.eq_def]; norm_num
    rw [mat_pad_loop.eq_def]; norm_num
    rw [mat_pad_loop.eq_def]; norm_num
    rw [mat_pad_loop.eq_def]; norm_num
  norm_num [mat_update_words, mat_take, hpad]

/-! ### Theorems for claim C1 -/

/-- C1: with a non-negative diagnostic count entering the gate, if the
count is positive after the memory-cap check (`ic + dc > 156` adds one
diagnostic) then no `.ob`, `.ent` or `.ext` artifact is written and the
`.am` file is removed; and any written artifact implies the final count
is zero (in which case `.ob` is written and `.am` kept). -/
theorem C1_no_emission_on_error (ec ic dc exc : Int) (hasEntry : Bool)
    (hec : 0 ≤ ec) :
    ((if ic + dc > 156 then ec + 1 else ec) > 0 →
      main_artifact_gate ec ic dc exc hasEntry = ⟨false, false, false, true⟩) ∧
    ((if ic + dc > 156 then ec + 1 else ec) = 0 →
      (main_artifact_gate ec ic dc exc hasEntry).wrote_ob = true ∧
      (main_artifact_gate ec ic dc exc hasEntry).removed_am = false) ∧
    (((main_artifact_gate ec ic dc exc hasEntry).wrote_ob = true ∨
      (main_artifact_gate ec ic dc exc hasEntry).wrote_ent = true ∨
      (main_artifact_gate ec ic dc exc hasEntry).wrote_ext = true) →
      (if ic + dc > 156 then ec + 1 else ec) = 0) := by
  unfold main_artifact_gate
  by_cases hpos : (if ic + dc > 156 then ec + 1 else ec) > 0
  · refine ⟨fun _ => by rw [if_pos hpos], fun h0 => absurd h0 (by omega), ?_⟩
    rw [if_pos hpos]
    rintro (h | h | h) <;> simp at h
  · have h0 : (if ic + dc > 156 then ec + 1 else ec) = 0 := by
      split at hpos <;> split <;> omega
    refine ⟨fun h => absurd h hpos, fun _ => ?_, fun _ => h0⟩
    rw [if_neg hpos]
    exact ⟨rfl, rfl⟩

/-- Witness for C1: one diagnostic, small images, no externals. -/
theorem C1_no_emission_on_error_witness :
    (0 : Int) ≤ 1 ∧
    main_artifact_gate 1 1 0 0 false = ⟨false, false, false, true⟩ :=
  ⟨by decide,
    (C1_no_emission_on_error 1 1 0 0 false (by decide)).1 (by decide)⟩

/-! ### Arithmetic facts about the encoder -/

/-- Unfolding equation of `fill_base4_rev` at a cons cell. -/
theorem fill_base4_rev_cons (current : Nat) (c : Char) (rest : List Char) :
    fill_base4_rev current (c :: rest)
      = if current = 0 then c :: rest
        else digit_to_char_special_base4 (current % 4)
          :: fill_base4_rev (current / 4) rest := rfl

/-- Unfolding equation of `add_one_rev` at a cons cell. -/
theorem add_one_rev_cons (carry : Nat) (c : Char) (rest : List Char) :
    add_one_rev carry (c :: rest)
      = if carry = 0 then c :: rest
        else digit_to_char_special_base4 ((char_to_digit_special_base4 c + carry) % 4)
          :: add_one_rev ((char_to_digit_special_base4 c + carry) / 4) rest := rfl

/-- Every character reads back as a digit of at most 3. -/
theorem char_to_digit_le_three (c : Char) : char_to_digit_special_base4 c ≤ 3 := by
  unfold char_to_digit_special_base4
  split_ifs <;> omega

/-- Reading back a written digit below 4 returns it. -/
theorem char_to_digit_of_digit_to_char (d : Nat) (h : d < 4) :
    char_to_digit_special_base4 (digit_to_char_special_base4 d) = d := by
  interval_cases d <;> rfl

/-- A written digit below 4 lies in the output alphabet. -/
theorem digit_to_char_is_base4 (d : Nat) (h : d < 4) :
    is_base4_char (digit_to_char_special_base4 d) := by
  interval_cases d
  · exact Or.inl rfl
  · exact Or.inr (Or.inl rfl)
  · exact Or.inr (Or.inr (Or.inl rfl))
  · exact Or.inr (Or.inr (Or.inr rfl))

/-- The inverted digit of any character lies in the output alphabet. -/
theorem invert_digit_is_base4 (c : Char) : is_base4_char (invert_digit c) := by
  have := char_to_digit_le_three c
  exact digit_to_char_is_base4 _ (by omega)

/-- The value of a reversed digit string is below `4 ^ length`. -/
theorem val_rev_lt (s : List Char) : val_rev s < 4 ^ s.length := by
  induction s with
  | nil => simp [val_rev]
  | cons c rest ih =>
    have := char_to_digit_le_three c
    simp only [val_rev, List.length_cons, pow_succ]
    omega

/-- An all-`a` string has value zero. -/
theorem val_rev_replicate_a (n : Nat) : val_rev (List.replicate n 'a') = 0 := by
  induction n with
  | zero => rfl
  | succ k ih =>
    simp [List.replicate_succ, val_rev, ih, char_to_digit_special_base4]

/-- Reversing an all-`a` string changes nothing. -/
theorem reverse_replicate_self (n : Nat) (a : Char) :
    (List.replicate n a).reverse = List.replicate n a := by
  rw [List.eq_replicate_iff]
  refine ⟨by simp, ?_⟩
  intro b hb
  exact List.eq_of_mem_replicate (List.mem_reverse.mp hb)

/-- The fill loop writes the base-4 digits of `n mod 4 ^ length` over an
all-`a` buffer. -/
theorem val_rev_fill_replicate (len : Nat) :
    ∀ n : Nat, val_rev (fill_base4_rev n (List.replicate len 'a')) = n % 4 ^ len := by
  induction len with
  | zero => intro n; simp [fill_base4_rev, val_rev, Nat.mod_one]
  | succ k ih =>
    intro n
    rw [List.replicate_succ]
    by_cases h : n = 0
    · subst h
      rw [show fill_base4_rev 0 ('a' :: List.replicate k 'a')
          = 'a' :: List.replicate k 'a' from rfl]
      rw [show val_rev ('a' :: List.replicate k 'a')
          = char_to_digit_special_base4 'a' + 4 * val_rev (List.replicate k 'a') from rfl]
      rw [val_rev_replicate_a]
      simp [char_to_digit_special_base4]
    · rw [fill_base4_rev_cons, if_neg h]
      rw [show val_rev (digit_to_char_special_base4 (n % 4)
            :: fill_base4_rev (n / 4) (List.replicate k 'a'))
          = char_to_digit_special_base4 (digit_to_char_special_base4 (n % 4))
            + 4 * val_rev (fill_base4_rev (n / 4) (List.replicate k 'a')) from rfl]
      rw [char_to_digit_of_digit_to_char _ (Nat.mod_lt _ (by norm_num)), ih]
      rw [pow_succ, mul_comm (4 ^ k) 4]
      exact (Nat.mod_mul).symm

/-- Digit inversion complements the value relative to `4 ^ length - 1`. -/
theorem val_rev_map_invert (s : List Char) :
    val_rev (s.map invert_digit) = (4 ^ s.length - 1) - val_rev s := by
  induction s with
  | nil => rfl
  | cons c rest ih =>
    have hc := char_to_digit_le_three c
    have hrest := val_rev_lt rest
    have hinv : char_to_digit_special_base4 (invert_digit c)
        = 3 - char_to_digit_special_base4 c := by
      unfold invert_digit
      exact char_to_digit_of_digit_to_char _ (by omega)
    simp only [List.map_cons, val_rev, hinv, ih, List.length_cons, pow_succ]
    omega

/-- A zero carry leaves the string unchanged. -/
theorem add_one_rev_zero (s : List Char) : add_one_rev 0 s = s := by
  cases s <;> simp [add_one_rev]

/-- The carry loop adds one modulo `4 ^ length`. -/
theorem val_rev_add_one_rev_one (s : List Char) :
    val_rev (add_one_rev 1 s) = (val_rev s + 1) % 4 ^ s.length := by
  induction s with
  | nil => rfl
  | cons c rest ih =>
    have hc := char_to_digit_le_three c
    have hrest := val_rev_lt rest
    rw [add_one_rev_cons, if_neg one_ne_zero]
    rcases Nat.lt_or_ge (char_to_digit_special_base4 c) 3 with h | h
    · have hm : (char_to_digit_special_base4 c + 1) % 4
          = char_to_digit_special_base4 c + 1 := Nat.mod_eq_of_lt (by omega)
      have hd : (char_to_digit_special_base4 c + 1) / 4 = 0 :=
        Nat.div_eq_of_lt (by omega)
      rw [hm, hd, add_one_rev_zero]
      simp only [val_rev, List.length_cons, pow_succ]
      rw [char_to_digit_of_digit_to_char _ (by omega)]
      have hlt : char_to_digit_special_base4 c + 4 * val_rev rest + 1
          < 4 ^ rest.length * 4 := by omega
      rw [Nat.mod_eq_of_lt hlt]
      omega
    · have h3 : char_to_digit_special_base4 c = 3 := by omega
      simp only [val_rev, List.length_cons, pow_succ]
      rw [h3]
      norm_num
      rw [ih, char_to_digit_of_digit_to_char 0 (by norm_num)]
      rw [show (3 : Nat) + 4 * val_rev rest + 1 = (val_rev rest + 1) * 4 from by ring]
      rw [Nat.mul_mod_mul_right]
      ring

/-- Appending a digit multiplies its weight by the length. -/
theorem val_rev_append_singleton (xs : List Char) (c : Char) :
    val_rev (xs ++ [c])
      = val_rev xs + char_to_digit_special_base4 c * 4 ^ xs.length := by
  induction xs with
  | nil => simp [val_rev]
  | cons x xs ih =>
    have hstep : val_rev ((x :: xs) ++ [c])
        = char_to_digit_special_base4 x + 4 * val_rev (xs ++ [c]) := rfl
    rw [hstep, ih, List.length_cons, pow_succ,
      show val_rev (x :: xs) = char_to_digit_special_base4 x + 4 * val_rev xs from rfl]
    ring

/-- The decoder computes the little-endian value of the reversed string. -/
theorem special_base4_value_eq_val_rev_reverse (s : List Char) :
    special_base4_value s = val_rev s.reverse := by
  suffices h : ∀ acc, s.foldl (fun acc c => 4 * acc + char_to_digit_special_base4 c) acc
      = acc * 4 ^ s.length + val_rev s.reverse by
    simpa [special_base4_value] using h 0
  induction s with
  | nil => intro acc; simp [val_rev]
  | cons c rest ih =>
    intro acc
    simp only [List.foldl_cons, ih, List.reverse_cons, val_rev_append_singleton,
      List.length_cons, List.length_reverse, pow_succ]
    ring

/-- The fill loop preserves the buffer length. -/
theorem fill_base4_rev_length (current : Nat) (s : List Char) :
    (fill_base4_rev current s).length = s.length := by
  induction s generalizing current with
  | nil => rfl
  | cons c rest ih =>
    unfold fill_base4_rev
    split_ifs
    · rfl
    · simp [ih]

/-- The carry loop preserves the buffer length. -/
theorem add_one_rev_length (s : List Char) :
    ∀ carry, (add_one_rev carry s).length = s.length := by
  induction s with
  | nil => intro carry; rfl
  | cons c rest ih =>
    intro carry
    unfold add_one_rev
    split_ifs
    · rfl
    · simp [ih]

/-- C10 part (a): the encoder always returns exactly `num_digits`
characters. -/
theorem int_to_special_base4_length (num : Int) (len : Nat) :
    (int_to_special_base4 num len).length = len := by
  unfold int_to_special_base4 add_one_to_special_base4
  split_ifs <;>
    simp [add_one_rev_length, fill_base4_rev_length]

/-- The fill loop keeps the string inside the output alphabet. -/
theorem fill_base4_rev_is_base4 (s : List Char) :
    ∀ current, (∀ c ∈ s, is_base4_char c) →
      ∀ c ∈ fill_base4_rev current s, is_base4_char c := by
  induction s with
  | nil =>
    intro current _ c hc
    simp [fill_base4_rev] at hc
  | cons a rest ih =>
    intro current hs c hc
    by_cases h : current = 0
    · subst h
      rw [show fill_base4_rev 0 (a :: rest) = a :: rest from rfl] at hc
      exact hs c hc
    · rw [fill_base4_rev_cons, if_neg h] at hc
      rcases List.mem_cons.mp hc with rfl | hmem
      · exact digit_to_char_is_base4 _ (Nat.mod_lt _ (by norm_num))
      · exact ih (current / 4) (fun x hx => hs x (List.mem_cons_of_mem a hx)) c hmem

/-- The carry loop keeps the string inside the output alphabet. -/
theorem add_one_rev_is_base4 (s : List Char) :
    ∀ carry, (∀ c ∈ s, is_base4_char c) →
      ∀ c ∈ add_one_rev carry s, is_base4_char c := by
  induction s with
  | nil =>
    intro carry _ c hc
    simp [add_one_rev] at hc
  | cons a rest ih =>
    intro carry hs c hc
    by_cases h : carry = 0
    · subst h
      rw [show add_one_rev 0 (a :: rest) = a :: rest from add_one_rev_zero _] at hc
      exact hs c hc
    · rw [add_one_rev_cons, if_neg h] at hc
      rcases List.mem_cons.mp hc with rfl | hmem
      · exact digit_to_char_is_base4 _ (Nat.mod_lt _ (by norm_num))
      · exact ih _ (fun x hx => hs x (List.mem_cons_of_mem a hx)) c hmem

/-- C10 part (b): the encoder only emits `a`..`d`. -/
theorem int_to_special_base4_is_base4 (num : Int) (len : Nat) :
    ∀ c ∈ int_to_special_base4 num len, is_base4_char c := by
  have hrep : ∀ c ∈ (List.replicate len 'a').reverse, is_base4_char c := by
    intro c hc
    rw [List.eq_of_mem_replicate (List.mem_reverse.mp hc)]
    exact Or.inl rfl
  unfold int_to_special_base4 add_one_to_special_base4
  split_ifs with hneg
  · intro c hc
    rw [List.mem_reverse] at hc
    refine add_one_rev_is_base4 _ _ ?_ c hc
    intro x hx
    rw [List.mem_reverse] at hx
    rcases List.mem_map.mp hx with ⟨y, _, rfl⟩
    exact invert_digit_is_base4 y
  · intro c hc
    rw [List.mem_reverse] at hc
    exact fill_base4_rev_is_base4 _ _ hrep c hc

/-- C10 part (c): a non-negative payload encodes to its value modulo
`4 ^ num_digits` (digits beyond the width are silently truncated). -/
theorem special_base4_value_int_to_nonneg (num : Int) (len : Nat) (h : 0 ≤ num) :
    special_base4_value (int_to_special_base4 num len)
      = num.toNat % 4 ^ len := by
  unfold int_to_special_base4
  rw [if_neg (not_lt.mpr h), reverse_replicate_self,
    special_base4_value_eq_val_rev_reverse, List.reverse_reverse,
    val_rev_fill_replicate]

/-- A negative payload encodes to `4 ^ len - (abs mod 4 ^ len)` modulo
`4 ^ len`: the base-4 two's complement of its absolute value. -/
theorem special_base4_value_int_to_neg (num : Int) (len : Nat) (h : num < 0) :
    special_base4_value (int_to_special_base4 num len)
      = (4 ^ len - num.natAbs % 4 ^ len) % 4 ^ len := by
  unfold int_to_special_base4 add_one_to_special_base4
  rw [if_pos h, reverse_replicate_self,
    special_base4_value_eq_val_rev_reverse, List.reverse_reverse,
    List.map_reverse, List.reverse_reverse,
    val_rev_add_one_rev_one, val_rev_map_invert, val_rev_fill_replicate,
    List.length_map, fill_base4_rev_length, List.length_replicate]
  have h1 : num.natAbs % 4 ^ len < 4 ^ len := Nat.mod_lt _ (by positivity)
  congr 1
  omega

/-! ### Theorems for claim C10 -/

/-- C10: for every integer and every positive width the encoder returns
exactly `num_digits` characters drawn from `a`..`d` (positions the digit
loop does not reach keep the `a` of the initial `memset`), and for every
non-negative `num` the string decodes to `num` modulo `4 ^ num_digits`:
digits beyond the field width are silently truncated, not reported. -/
theorem C10_encoder_shape (num : Int) (num_digits : Nat) (h : 0 < num_digits) :
    (int_to_special_base4 num num_digits).length = num_digits ∧
    (∀ c ∈ int_to_special_base4 num num_digits, is_base4_char c) ∧
    (0 ≤ num →
      special_base4_value (int_to_special_base4 num num_digits)
        = num.toNat % 4 ^ num_digits) :=
  ⟨int_to_special_base4_length num num_digits,
   int_to_special_base4_is_base4 num num_digits,
   fun h0 => special_base4_value_int_to_nonneg num num_digits h0⟩

/-- Witness for C10 at `num = 1000`, width 3: the value is truncated to
`1000 mod 64 = 40`. -/
theorem C10_encoder_shape_witness :
    (0 < 3 ∧ (int_to_special_base4 1000 3).length = 3) ∧
    ((0 : Int) ≤ 1000 ∧
      special_base4_value (int_to_special_base4 1000 3) = (1000 : Int).toNat % 4 ^ 3) ∧
    (1000 : Int).toNat % 4 ^ 3 = 40 :=
  ⟨⟨by decide, (C10_encoder_shape 1000 3 (by decide)).1⟩,
   ⟨by decide, (C10_encoder_shape 1000 3 (by decide)).2.2 (by decide)⟩,
   by decide⟩

/-! ### Theorems for claim C5 -/

/-- C5 counterexample: the claim promises the round trip for every
non-negative value below `4 ^ width`, decoding in two's complement at
that width.  At width 1 the value 2 is below `4 ^ 1`, encodes to the
digit string `c`, and decodes in two's complement to `-2`, not 2. -/
theorem C5_counterexample_value_two_width_one :
    (0 : Int) ≤ 2 ∧ (2 : Int) < 4 ^ 1 ∧
    special_base4_twos_complement (int_to_special_base4 2 1) = -2 := by decide

/-- C5 (amended): at every positive width, decoding the encoder's output
in two's complement reproduces the source value exactly on the
two's-complement range of the width: every non-negative value below
`4 ^ width / 2` and every negative value down to `-(4 ^ width / 2)`. -/
theorem C5_roundtrip_twos_complement_range (num : Int) (len : Nat)
    (h0 : 0 < len) (hlo : -(4 ^ len / 2 : Int) ≤ num)
    (hhi : num < (4 ^ len / 2 : Int)) :
    special_base4_twos_complement (int_to_special_base4 num len) = num := by
  have hlen := int_to_special_base4_length num len
  have hcastN : ((4 ^ len : Nat) : Int) = (4 : Int) ^ len := by push_cast; ring
  have hdiv : ((4 ^ len / 2 : Nat) : Int) = ((4 ^ len : Nat) : Int) / 2 :=
    Int.ofNat_div _ _
  unfold special_base4_twos_complement
  rw [hlen]
  by_cases hn : 0 ≤ num
  · rw [special_base4_value_int_to_nonneg num len hn]
    rw [Nat.mod_eq_of_lt (by omega)]
    rw [if_pos (by omega)]
    omega
  · rw [special_base4_value_int_to_neg num len (by omega)]
    rw [Nat.mod_eq_of_lt (show num.natAbs < 4 ^ len by omega)]
    rw [Nat.mod_eq_of_lt (show 4 ^ len - num.natAbs < 4 ^ len by omega)]
    rw [if_neg (by omega)]
    omega

/-- Witness for C5 at `num = -300`, width 5 (the data-word field):
`-300` lies in `[-512, 512)` and survives the round trip. -/
theorem C5_roundtrip_twos_complement_range_witness :
    (0 < 5 ∧ -(4 ^ 5 / 2 : Int) ≤ -300 ∧ (-300 : Int) < (4 ^ 5 / 2 : Int)) ∧
    special_base4_twos_complement (int_to_special_base4 (-300) 5) = -300 :=
  ⟨⟨by decide, by decide, by decide⟩,
   C5_roundtrip_twos_complement_range (-300) 5 (by decide) (by decide) (by decide)⟩

end Assembler
